import Mathlib

/-!
Verification development for the scene state synchronization engine
(`scene_synchronizer.cpp` / `scene_synchronizer.h`).

The C++ code is shallowly embedded: each modelled C++ function becomes an
executable Lean definition over explicit state records.  Machine integers are
modelled as `Nat` with the `UINT32_MAX` sentinel spelled out; `real_t`
quantities that the reconciliation and interpolation logic manipulates are
modelled over `ℚ` (exact real-number semantics of the written formulas).
Pointers that may be null become `Option`; the `std::map` containers become
association lists with first-occurrence lookup and update, matching the
unique-key semantics of the source containers.
-/

namespace NS

/-- The C++ constant `UINT32_MAX`, used throughout the synchronizer as the
"no id" sentinel for input ids, net ids, sync group ids and epochs. -/
def UINT32MAX : Nat := 4294967295

/-- `SceneSynchronizerBase::GLOBAL_SYNC_GROUP_ID` (value 0). -/
def GLOBAL_SYNC_GROUP_ID : Nat := 0

/-- Modelled from the spec: the `NetEventFlag` event-class bitset (§4.1 of the
spec; `core/core.h` is not among the sources).  Ordinary change, the three
sync flags and the end-of-sync flag occupy one bit each. -/
def NetEventFlag.CHANGE : Nat := 1

/-- Modelled from the spec: value installed by reconciliation. -/
def NetEventFlag.SYNC_RECOVER : Nat := 2

/-- Modelled from the spec: full-reset branch of reconciliation. -/
def NetEventFlag.SYNC_RESET : Nat := 4

/-- Modelled from the spec: value observed during resimulated input. -/
def NetEventFlag.SYNC_REWIND : Nat := 8

/-- Modelled from the spec: end-of-sync second batch. -/
def NetEventFlag.END_SYNC : Nat := 16

/-- Dynamic variant values stored in variables.  Only the structure the claims
need is modelled: the default (nil) constructor produced by a
default-constructed `Variant`, and an integer payload; equality dispatches on
the tag exactly as the host comparison does. -/
inductive Value where
  | nil : Value
  | int : Int → Value
deriving DecidableEq, Repr

/-- `NS::NameAndVar`: a (variable name, value) pair as stored in world
snapshots. -/
structure NameAndVar where
  name : String
  value : Value
deriving DecidableEq, Repr

/-- `NS::Snapshot`: one tick's captured world state.  `input_id` is the
acknowledged input id, with `UINT32MAX` meaning "no input id"; `object_vars`
maps net ids to the recorded (name, value) rows; custom data is kept as a
flag plus a value. -/
structure Snapshot where
  input_id : Nat
  object_vars : List (List NameAndVar)
  has_custom_data : Bool
  custom_data : Value
deriving DecidableEq, Repr

/-- `ClientSynchronizer::store_controllers_snapshot`.  The deque is a list
front-to-back; `push_back` appends, `back()` is `getLast?`.  The update of
`back()` via `Snapshot::copy` replaces the stored entry wholesale.  Note that
in the source the branch for a strictly larger input id than the last stored
one falls through the `ERR_FAIL_COND_MSG` and returns without storing
anything. -/
def store_controllers_snapshot (has_player_controller : Bool) (p_snapshot : Snapshot)
    (r_snapshot_storage : List Snapshot) : List Snapshot :=
  if p_snapshot.input_id = UINT32MAX ∧ has_player_controller then
    -- The snapshot carries no info for this controller; skip it.
    r_snapshot_storage
  else if p_snapshot.input_id = UINT32MAX then
    -- No controller registered: assume this snapshot is the most up to date.
    [p_snapshot]
  else
    match r_snapshot_storage.getLast? with
    | some last =>
        if p_snapshot.input_id = last.input_id then
          r_snapshot_storage.dropLast ++ [p_snapshot]
        else
          -- smaller id: ERR_FAIL leaves the storage untouched;
          -- larger id: the source has no push_back on this path either.
          r_snapshot_storage
    | none => [p_snapshot]

/-- `NS::VarDescriptor`: a registered variable slot. -/
structure VarDescriptor where
  id : Nat
  name : String
  value : Value
  skip_rewinding : Bool
  enabled : Bool
deriving DecidableEq, Repr

/-- The variable slots of one `NS::ObjectData`. -/
structure ObjectData where
  vars : List VarDescriptor
deriving DecidableEq, Repr

/-- `ObjectData::find_variable_id`: linear scan of the slots by name. -/
def ObjectData.find_variable_id (od : ObjectData) (p_var_name : String) : Option Nat :=
  (od.vars.find? (fun v => v.name == p_var_name)).map (·.id)

/-- `SceneSynchronizerBase::register_variable` restricted to one object.  The
host read `SynchronizerManager::get_variable` is the `get_variable` argument
(`none` = the host reports the variable as unreadable).  When the read fails
the source only logs a debug error and proceeds: the slot is pushed anyway,
with the still default-constructed (nil) `old_val`. -/
def register_variable (get_variable : String → Option Value) (od : ObjectData)
    (p_variable : String) : ObjectData :=
  match od.find_variable_id p_variable with
  | none =>
      let old_val : Value :=
        match get_variable p_variable with
        | some v => v
        | none => Value.nil
      { od with
        vars := od.vars ++ [⟨od.vars.length, p_variable, old_val, false, true⟩] }
  | some var_id =>
      -- Make sure the var is active.
      match od.vars[var_id]? with
      | some v => { od with vars := od.vars.set var_id { v with enabled := true } }
      | none => od

/-- Modelled from the spec: `NS::ListeningVariable` (declared in
`net_utilities.h`, which is not among the sources): one watched (object, var)
pair of a change listener, with the per-batch `old_set` bit (§3
ChangesListener).  Cleared entries (nulled `node_data`) are outside the
modelled behaviours. -/
structure ListeningVariable where
  node_data : Nat
  var_id : Nat
  old_set : Bool
deriving DecidableEq, Repr

/-- Modelled from the spec: `NS::ChangesListener` (declared in
`net_utilities.h`): the flag mask, the "has emitted this batch" bit
(initially set, so an untouched listener does not fire), the watched pairs
and the parallel old-value buffer. -/
structure ChangesListener where
  flag : Nat
  emitted : Bool
  watching_vars : List ListeningVariable
  old_values : List Value
deriving DecidableEq, Repr

/-- The listener-dispatch state of `SceneSynchronizerBase`: the registered
listeners plus the flag of the batch in progress. -/
structure ListenerState where
  changes_listeners : List ChangesListener
  event_flag : Nat
deriving DecidableEq, Repr

/-- `SceneSynchronizerBase::change_events_begin`: records the batch flag.
(The four derived in-progress booleans it also sets feed `is_recovered` and
friends and are not part of the modelled behaviours.) -/
def change_events_begin (st : ListenerState) (p_flag : Nat) : ListenerState :=
  { st with event_flag := p_flag }

/-- One listener's update inside `SceneSynchronizerBase::change_event_add`.
The source first skips listeners whose `flag` does not intersect
`event_flag`, then clears `emitted` and walks `watching_vars` with
`for (auto wv : listener->watching_vars)`: the loop variable is a *copy* of
each entry, so its write `wv.old_set = true` mutates the copy and is lost,
while `listener->old_values[v] = p_old` goes through the listener itself and
persists.  The model therefore updates `old_values` but leaves `old_set`
untouched.  As in the source, the position test compares only the var id. -/
def ChangesListener.event_add (event_flag : Nat) (p_var_id : Nat) (p_old : Value)
    (l : ChangesListener) : ChangesListener :=
  if l.flag &&& event_flag = 0 then l
  else
    { l with
      emitted := false
      old_values := (l.watching_vars.zip l.old_values).map
        (fun wv_ov => if wv_ov.1.var_id = p_var_id then p_old else wv_ov.2) }

/-- `SceneSynchronizerBase::change_event_add`: dispatches
`ChangesListener.event_add` to every listener registered on the changed
variable (the wiring installed by `track_variables_changes` registers a
listener on exactly the variables it watches). -/
def change_event_add (st : ListenerState) (p_object_data : Nat) (p_var_id : Nat)
    (p_old : Value) : ListenerState :=
  { st with
    changes_listeners := st.changes_listeners.map (fun l =>
      if l.watching_vars.any
          (fun wv => wv.node_data == p_object_data && wv.var_id == p_var_id) then
        l.event_add st.event_flag p_var_id p_old
      else l) }

/-- One listener's processing inside
`SceneSynchronizerBase::change_events_flush`: a listener whose `emitted` bit
is still clear fires once, after defaulting every old value whose `old_set`
bit is clear to the variable's current value and resetting the bits.  The
`current` argument stands for
`watching_vars[v].node_data->vars[var_id].var.value`.  Returns the updated
listener and the fired old-value vector, if any. -/
def ChangesListener.flush (current : Nat → Nat → Value) (l : ChangesListener) :
    ChangesListener × Option (List Value) :=
  if l.emitted then (l, none)
  else
    let new_olds := (l.watching_vars.zip l.old_values).map
      (fun wv_ov =>
        if wv_ov.1.old_set then wv_ov.2
        else current wv_ov.1.node_data wv_ov.1.var_id)
    (⟨l.flag, true,
      l.watching_vars.map (fun wv => { wv with old_set := false }),
      new_olds⟩, some new_olds)

/-- `SceneSynchronizerBase::change_events_flush`: walks the listeners in
registration order, firing each un-emitted one; returns the updated state and
the fired old-value vectors in firing order. -/
def change_events_flush (current : Nat → Nat → Value) (st : ListenerState) :
    ListenerState × List (List Value) :=
  let processed := st.changes_listeners.map (ChangesListener.flush current)
  (⟨processed.map (·.1), st.event_flag⟩, processed.filterMap (·.2))

/-- `NS::PeerData`: per remote peer bookkeeping.  `controller_id` is the net
id of the peer's controller object (`none` = `ObjectNetId::NONE`). -/
structure PeerData where
  controller_id : Option Nat
  sync_group_id : Nat
  force_notify_snapshot : Bool
  need_full_snapshot : Bool
deriving DecidableEq, Repr

/-- Modelled from the spec: `NS::SyncGroup` (implemented in `net_utilities`,
which is not among the sources): the realtime and deferred object lists
(kept here as net-id lists) and the subscribed-peer list (§3, §4.2). -/
structure SyncGroup where
  realtime_nodes : List Nat
  deferred_nodes : List Nat
  peers : List Int
deriving DecidableEq, Repr

/-- Modelled from the spec: `SyncGroup::add_new_node` inserts the object into
the group's realtime (resp. deferred) object list when not already present
(§4.2 change bookkeeping is not membership-relevant and is omitted). -/
def SyncGroup.add_new_node (g : SyncGroup) (net_id : Nat) (realtime : Bool) : SyncGroup :=
  if realtime then
    if net_id ∈ g.realtime_nodes then g
    else { g with realtime_nodes := g.realtime_nodes ++ [net_id] }
  else
    if net_id ∈ g.deferred_nodes then g
    else { g with deferred_nodes := g.deferred_nodes ++ [net_id] }

/-- Modelled from the spec: `SyncGroup::remove_node` removes the object from
both object lists. -/
def SyncGroup.remove_node (g : SyncGroup) (net_id : Nat) : SyncGroup :=
  { g with
    realtime_nodes := g.realtime_nodes.filter (fun n => n ≠ net_id)
    deferred_nodes := g.deferred_nodes.filter (fun n => n ≠ net_id) }

/-- Modelled from the spec: `SyncGroup::replace_nodes` atomically installs the
new object lists. -/
def SyncGroup.replace_nodes (g : SyncGroup) (new_realtime new_deferred : List Nat) :
    SyncGroup :=
  { g with realtime_nodes := new_realtime, deferred_nodes := new_deferred }

/-- Modelled from the spec: `SyncGroup::remove_all_nodes` empties both object
lists. -/
def SyncGroup.remove_all_nodes (g : SyncGroup) : SyncGroup :=
  { g with realtime_nodes := [], deferred_nodes := [] }

/-- Updates the i-th sync group of a list in place (`sync_groups[i]` mutation).
Out-of-range indices leave the list unchanged; the source always guards the
index first. -/
def update_group (i : Nat) (f : SyncGroup → SyncGroup) : List SyncGroup → List SyncGroup
  | [] => []
  | g :: gs =>
    match i with
    | 0 => f g :: gs
    | j + 1 => g :: update_group j f gs

/-- The server-side state the sync-group operations manipulate: the peer map
(`SceneSynchronizerBase::peer_data`, a `std::map` modelled as an association
list with unique keys), the `ServerSynchronizer::sync_groups` vector, and the
set of registered objects' net ids (standing for the object storage queried
by `get_object_data`). -/
structure ServerState where
  peer_data : List (Int × PeerData)
  sync_groups : List SyncGroup
  objects : List Nat
deriving DecidableEq, Repr

/-- `MapFunc::at(peer_data, peer)`: first-occurrence lookup. -/
def lookup_peer (m : List (Int × PeerData)) (p : Int) : Option PeerData :=
  (m.find? (fun e => e.1 == p)).map (·.2)

/-- Write-through of a `PeerData` mutation done via the pointer returned by
`MapFunc::at`: updates the first entry with the given key. -/
def set_peer : List (Int × PeerData) → Int → PeerData → List (Int × PeerData)
  | [], _, _ => []
  | e :: rest, p, pd => if e.1 = p then (p, pd) :: rest else e :: set_peer rest p pd

/-- `ServerSynchronizer::sync_group_add_node`: guarded by the null check, the
group-exists check and the read-only global group check, then delegates to
`SyncGroup::add_new_node`. -/
def server_sync_group_add_node (st : ServerState) (p_object_data : Option Nat)
    (p_group_id : Nat) (p_realtime : Bool) : ServerState :=
  match p_object_data with
  | none => st
  | some net_id =>
    if st.sync_groups.length ≤ p_group_id then st
    else if p_group_id = GLOBAL_SYNC_GROUP_ID then st
    else
      { st with
        sync_groups := update_group p_group_id
          (fun g => g.add_new_node net_id p_realtime) st.sync_groups }

/-- `ServerSynchronizer::sync_group_remove_node`: same guards, then
`SyncGroup::remove_node`. -/
def server_sync_group_remove_node (st : ServerState) (p_object_data : Option Nat)
    (p_group_id : Nat) : ServerState :=
  match p_object_data with
  | none => st
  | some net_id =>
    if st.sync_groups.length ≤ p_group_id then st
    else if p_group_id = GLOBAL_SYNC_GROUP_ID then st
    else
      { st with
        sync_groups := update_group p_group_id
          (fun g => g.remove_node net_id) st.sync_groups }

/-- `ServerSynchronizer::sync_group_replace_nodes`: same guards, then
`SyncGroup::replace_nodes`. -/
def server_sync_group_replace_nodes (st : ServerState) (p_group_id : Nat)
    (new_realtime new_deferred : List Nat) : ServerState :=
  if st.sync_groups.length ≤ p_group_id then st
  else if p_group_id = GLOBAL_SYNC_GROUP_ID then st
  else
    { st with
      sync_groups := update_group p_group_id
        (fun g => g.replace_nodes new_realtime new_deferred) st.sync_groups }

/-- `ServerSynchronizer::sync_group_remove_all_nodes`: same guards, then
`SyncGroup::remove_all_nodes`. -/
def server_sync_group_remove_all_nodes (st : ServerState) (p_group_id : Nat) :
    ServerState :=
  if st.sync_groups.length ≤ p_group_id then st
  else if p_group_id = GLOBAL_SYNC_GROUP_ID then st
  else
    { st with
      sync_groups := update_group p_group_id SyncGroup.remove_all_nodes st.sync_groups }

/-- `ServerSynchronizer::on_object_data_added`: the freshly registered object
is added to the global sync group, and when it carries a controller its
peer's snapshot flags are forced (`controller_peer` stands for
`get_peer_for_controller`). -/
def server_on_object_data_added (st : ServerState) (net_id : Nat)
    (controller_peer : Option Int) : ServerState :=
  let st :=
    { st with
      sync_groups :=
        update_group GLOBAL_SYNC_GROUP_ID (fun g => g.add_new_node net_id true)
          st.sync_groups
      objects := if net_id ∈ st.objects then st.objects else st.objects ++ [net_id] }
  match controller_peer with
  | none => st
  | some peer =>
    match lookup_peer st.peer_data peer with
    | none => st
    | some pd =>
      { st with
        peer_data := set_peer st.peer_data peer
          { pd with force_notify_snapshot := true, need_full_snapshot := true } }

/-- `SceneSynchronizerBase::sync_group_move_peer_to` composed with the
`ServerSynchronizer::sync_group_move_peer_to` it delegates to.  The base
records the new group id on the peer *before* the server-side function checks
that the group exists; the server-side function erases the peer from every
group's peer list (first occurrence, as `LocalVector::erase` does) before
that check as well. -/
def sync_group_move_peer_to (st : ServerState) (p_peer_id : Int) (p_group_id : Nat) :
    ServerState :=
  match lookup_peer st.peer_data p_peer_id with
  | none => st
  | some pd =>
    if pd.sync_group_id = p_group_id then st
    else
      let pd1 := { pd with sync_group_id := p_group_id }
      let st := { st with peer_data := set_peer st.peer_data p_peer_id pd1 }
      -- ServerSynchronizer::sync_group_move_peer_to from here on.
      let st :=
        { st with
          sync_groups := st.sync_groups.map
            (fun g => { g with peers := g.peers.erase p_peer_id }) }
      if p_group_id = UINT32MAX then st
      else if st.sync_groups.length ≤ p_group_id then st
      else
        let st :=
          { st with
            sync_groups := update_group p_group_id
              (fun g => { g with peers := g.peers ++ [p_peer_id] }) st.sync_groups }
        let pd2 := { pd1 with force_notify_snapshot := true, need_full_snapshot := true }
        let st := { st with peer_data := set_peer st.peer_data p_peer_id pd2 }
        -- Make sure the controller is added into this group.
        match pd2.controller_id with
        | none => st
        | some controller_net_id =>
          if controller_net_id ∈ st.objects then
            server_sync_group_add_node st (some controller_net_id) p_group_id true
          else st

/-- One snapshot emission performed by
`ServerSynchronizer::process_snapshot_notificator`: the recipient, the input
id overlaid into the header region for that recipient, whether the shared
body was the full or the delta snapshot, and the body itself. -/
structure SnapshotSend where
  peer : Int
  header_input_id : Nat
  is_full : Bool
  body : Nat
deriving DecidableEq, Repr

/-- The accumulator of the per-peer loop of
`ServerSynchronizer::process_snapshot_notificator` for one sync group: the
peer map, the two lazy-generation latches (negations of the
`*_snapshot_need_init` locals), the emitted sends and, for auditing laziness,
the sequence of `generate_snapshot` invocations (`true` = full). -/
structure NotifAcc where
  peers_map : List (Int × PeerData)
  full_generated : Bool
  delta_generated : Bool
  sends : List SnapshotSend
  gen_calls : List Bool
deriving DecidableEq, Repr

/-- The input id fetched for one peer's snapshot header: the peer's
controller's current input id, or `UINT32MAX` when the peer has no controller
object (`ctrl_input` stands for
`controller->get_current_input_id()`; `objects` stands for the object
storage queried by `get_object_data`). -/
def peer_header_input_id (objects : List Nat) (ctrl_input : Nat → Nat)
    (pd : PeerData) : Nat :=
  match pd.controller_id with
  | some cid => if cid ∈ objects then ctrl_input cid else UINT32MAX
  | none => UINT32MAX

/-- The body of the per-peer loop of
`ServerSynchronizer::process_snapshot_notificator`.  `gen` stands for
`generate_snapshot` on the group at hand (pure, so the produced body depends
only on fullness).  A peer missing from the map is skipped with an error
print; a peer with neither `force_notify_snapshot` nor an elapsed state
interval is skipped; otherwise `force_notify_snapshot` is cleared, the needed
snapshot body is generated lazily and reused, and the send carries the body
together with the peer's own header input id. -/
def process_group_peer (gen : Bool → Nat) (objects : List Nat) (ctrl_input : Nat → Nat)
    (notify_state : Bool) (acc : NotifAcc) (peer_id : Int) : NotifAcc :=
  match lookup_peer acc.peers_map peer_id with
  | none => acc
  | some pd =>
    if pd.force_notify_snapshot = false ∧ notify_state = false then acc
    else
      let input_id := peer_header_input_id objects ctrl_input pd
      if pd.need_full_snapshot then
        let pd1 := { pd with force_notify_snapshot := false, need_full_snapshot := false }
        { peers_map := set_peer acc.peers_map peer_id pd1
          full_generated := true
          delta_generated := acc.delta_generated
          sends := acc.sends ++ [⟨peer_id, input_id, true, gen true⟩]
          gen_calls := if acc.full_generated then acc.gen_calls else acc.gen_calls ++ [true] }
      else
        let pd1 := { pd with force_notify_snapshot := false }
        { peers_map := set_peer acc.peers_map peer_id pd1
          full_generated := acc.full_generated
          delta_generated := true
          sends := acc.sends ++ [⟨peer_id, input_id, false, gen false⟩]
          gen_calls := if acc.delta_generated then acc.gen_calls else acc.gen_calls ++ [false] }

/-- `ServerSynchronizer::process_snapshot_notificator` for one sync group with
subscribers: folds the per-peer body over the group's peer list.
`notify_state` records whether the group's state interval elapsed this
tick. -/
def process_snapshot_notificator_group (gen : Bool → Nat) (objects : List Nat)
    (ctrl_input : Nat → Nat) (notify_state : Bool) (group_peers : List Int)
    (peers_map : List (Int × PeerData)) : NotifAcc :=
  group_peers.foldl (process_group_peer gen objects ctrl_input notify_state)
    ⟨peers_map, false, false, [], []⟩

/-- The outcome of `NS::Snapshot::compare` as consumed by the reconciliation
loop (`snapshot.cpp` is not among the sources, and the claims treat the
comparison as opaque): either the states match, or they match up to a partial
no-rewind fix (the filled `no_rewind_recover` with `input_id == 0`), or a
rewind is needed. -/
inductive CompareOutcome where
  | equal : CompareOutcome
  | soft : Snapshot → CompareOutcome
  | hard : CompareOutcome
deriving DecidableEq, Repr

/-- The externally visible actions of the client reconciliation loop. -/
inductive ClientEvent where
  | applySnapshot : Snapshot → Nat → Bool → ClientEvent
  | stateValidated : Nat → ClientEvent
  | rewindFrameBegin : Nat → Nat → Nat → ClientEvent
deriving DecidableEq, Repr

/-- The `ClientSynchronizer` state driving `process_received_server_state`:
the two snapshot queues (front-to-back) and whether
`player_controller_node_data` is set. -/
structure ClientState where
  server_snapshots : List Snapshot
  client_snapshots : List Snapshot
  has_player_controller : Bool
deriving DecidableEq, Repr

/-- The checkable-input-id search of
`ClientSynchronizer::process_received_server_state`: walk the server queue
from the newest backwards and return the input id of the first entry that
also appears in the client queue; `UINT32MAX` = none found. -/
def find_checkable_input_id (server client : List Snapshot) : Nat :=
  match server.reverse.find?
      (fun s => client.any (fun c => c.input_id == s.input_id)) with
  | some s => s.input_id
  | none => UINT32MAX

/-- Phases two and three of
`ClientSynchronizer::process_received_server_state`, entered with both queues
already dropped to the checkable input id at their front.  `cmp` stands for
the `Snapshot::compare` call of `__pcr__fetch_recovery_info`; `resim` stands
for the `update_client_snapshot` refresh a client snapshot undergoes after
its input is re-processed (rewind) or after a partial fix (soft path).  The
client queue pops its front after the comparison; the server queue pops its
front at the end.  On a hard divergence the full server snapshot is applied
with `SYNC_RECOVER | SYNC_RESET`, `state_validated` fires, and each remaining
queued input is replayed behind a `rewind_frame_begin(id, index, count)`
event; on the no-rewind paths `state_validated` fires, preceded by a partial
apply with `SYNC_RECOVER` (custom data skipped) when the comparison produced
a no-rewind fix. -/
def pcr_check_phase (cmp : Snapshot → Snapshot → CompareOutcome)
    (resim : Snapshot → Snapshot) (checkable : Nat) (hpc : Bool) :
    List Snapshot → List Snapshot → ClientState × List ClientEvent
  | s_front :: s_rest, c_front :: c_rest =>
    match cmp s_front c_front with
    | CompareOutcome.hard =>
        (⟨s_rest, c_rest.map resim, hpc⟩,
          [ClientEvent.applySnapshot s_front
              (NetEventFlag.SYNC_RECOVER ||| NetEventFlag.SYNC_RESET) false,
            ClientEvent.stateValidated checkable]
          ++ (List.range c_rest.length).zipWith
              (fun i c => ClientEvent.rewindFrameBegin c.input_id i c_rest.length) c_rest)
    | CompareOutcome.soft no_rewind_recover =>
        (⟨s_rest,
            match c_rest.getLast? with
            | none => c_rest
            | some last => c_rest.dropLast ++ [resim last],
            hpc⟩,
          [ClientEvent.applySnapshot no_rewind_recover NetEventFlag.SYNC_RECOVER true,
            ClientEvent.stateValidated checkable])
    | CompareOutcome.equal =>
        (⟨s_rest, c_rest, hpc⟩, [ClientEvent.stateValidated checkable])
  | s, c => (⟨s, c, hpc⟩, [])

/-- `ClientSynchronizer::process_received_server_state`.  The paused branch
(`process_paused_controller_recovery`) drops the server queue to its newest
entry, applies it with `SYNC_RECOVER` and pops it. -/
def process_received_server_state (cmp : Snapshot → Snapshot → CompareOutcome)
    (resim : Snapshot → Snapshot) (st : ClientState) : ClientState × List ClientEvent :=
  match st.server_snapshots.getLast? with
  | none => (st, [])
  | some newest =>
    if newest.input_id = UINT32MAX then
      (⟨[], [], st.has_player_controller⟩,
        [ClientEvent.applySnapshot newest NetEventFlag.SYNC_RECOVER false])
    else if st.has_player_controller = false then (st, [])
    else if st.client_snapshots.isEmpty then
      -- No client input: the stream is paused.
      (⟨[], st.client_snapshots, st.has_player_controller⟩,
        [ClientEvent.applySnapshot newest NetEventFlag.SYNC_RECOVER false])
    else
      let checkable := find_checkable_input_id st.server_snapshots st.client_snapshots
      if checkable = UINT32MAX then (st, [])
      else
        pcr_check_phase cmp resim checkable st.has_player_controller
          (st.server_snapshots.dropWhile (fun s => s.input_id < checkable))
          (st.client_snapshots.dropWhile (fun c => c.input_id < checkable))

/-- The spec-side reconciliation step, written from the spec's words (§4.6):
the input ids present in both queues. -/
def common_input_ids (st : ClientState) : List Nat :=
  (st.server_snapshots.map (·.input_id)).filter
    (fun i => (st.client_snapshots.map (·.input_id)).contains i)

/-- The exact value of the C `FLT_MAX` constant, as a rational. -/
def FLT_MAX : ℚ := (2 ^ 128 : ℚ) - 2 ^ 104

/-- `ClientSynchronizer::DeferredSyncInterpolationData` (per-object deferred
interpolation state; the field name keeps the source's spelling).  Bit
buffers are modelled as bit lists; the `real_t` quantities follow the written
formulas over `ℚ`. -/
structure DeferredSyncInterpolationData where
  past_epoch : Nat
  future_epoch : Nat
  alpha_advacing_per_epoch : ℚ
  alpha : ℚ
  past_epoch_buffer : List Bool
  future_epoch_buffer : List Bool
deriving DecidableEq, Repr

/-- The per-object core of `ClientSynchronizer::receive_deferred_sync_data`
after the packet's `(net_id, bit_count, bits)` record for one known object
has been decoded: the received bits become the future buffer, the past
buffer is freshly collected from the object's *current* state via the
object's `collect_epoch` function (the `collected_current` argument), the
old future epoch becomes the past epoch and the received epoch the future
one; interpolation restarts only when the new past epoch precedes the new
future epoch, else the stream is parked at `FLT_MAX`. -/
def receive_deferred_sync_for_object (epoch : Nat) (p_buffer : List Bool)
    (collected_current : List Bool) (stream : DeferredSyncInterpolationData) :
    DeferredSyncInterpolationData :=
  let s1 : DeferredSyncInterpolationData :=
    { stream with
      future_epoch_buffer := p_buffer
      past_epoch_buffer := collected_current
      past_epoch := stream.future_epoch
      future_epoch := epoch }
  if s1.past_epoch < s1.future_epoch then
    { s1 with
      alpha := 0
      alpha_advacing_per_epoch := 1 / ((s1.future_epoch : ℚ) - (s1.past_epoch : ℚ)) }
  else
    { s1 with alpha := FLT_MAX, alpha_advacing_per_epoch := FLT_MAX }

/-- The per-object body of
`ClientSynchronizer::process_received_deferred_sync_data` for one tick: a
stream whose `alpha` already exceeds 1.2 idles; otherwise `alpha` advances by
`alpha_advacing_per_epoch` and `apply_epoch` is invoked with the advanced
alpha and the two buffers (returned as the second component; the constant
`delta` argument is omitted). -/
def process_deferred_stream (stream : DeferredSyncInterpolationData) :
    DeferredSyncInterpolationData × Option (ℚ × List Bool × List Bool) :=
  if (6 : ℚ) / 5 < stream.alpha then (stream, none)
  else
    let s1 := { stream with alpha := stream.alpha + stream.alpha_advacing_per_epoch }
    (s1, some (s1.alpha, s1.past_epoch_buffer, s1.future_epoch_buffer))

/-- The outcome of parsing one object record in
`ClientSynchronizer::parse_sync_data`: whether the record's variables were
skipped (consumed without dispatch), whether the object got registered and
its net id assigned, whether `notify_server_full_snapshot_is_needed` fired,
whether the variable records were dispatched to the variable callback, and
the updated `objects_names` map. -/
structure ParseObjectOutcome where
  skip_object : Bool
  registered : Bool
  net_id_assigned : Bool
  requested_full_snapshot : Bool
  vars_committed : Bool
  objects_names : List (Nat × String)
deriving DecidableEq, Repr

/-- `std::map::insert`: inserts only when the key is absent. -/
def names_insert (m : List (Nat × String)) (k : Nat) (v : String) : List (Nat × String) :=
  if m.any (fun e => e.1 == k) then m else m ++ [(k, v)]

/-- First-occurrence lookup in the `objects_names` map. -/
def names_at (m : List (Nat × String)) (k : Nat) : Option String :=
  (m.find? (fun e => e.1 == k)).map (·.2)

/-- The unknown-object resolution of one object record inside
`ClientSynchronizer::parse_sync_data`.  `known_object` stands for
`get_object_data(net_id, false) != nullptr`; `fetch_app_object` is the host
resolver; `snapshot_name` is the record's optional name field.  A name sent
in the record is remembered in `objects_names` first.  For an unknown
object, the name is taken from the record or else from `objects_names`; only
when neither yields a name is a full snapshot requested — the resolution is
attempted regardless (with the empty name in that case), and a name that
fails to resolve merely skips the record's variables.  A resolved object is
registered and the received net id assigned, and its variables are
dispatched. -/
def parse_object_record (known_object : Bool) (objects_names : List (Nat × String))
    (fetch_app_object : String → Option Nat) (net_id : Nat)
    (snapshot_name : Option String) : ParseObjectOutcome :=
  let names :=
    match snapshot_name with
    | some n => names_insert objects_names net_id n
    | none => objects_names
  if known_object then
    { skip_object := false, registered := false, net_id_assigned := false
      requested_full_snapshot := false, vars_committed := true, objects_names := names }
  else
    let name_and_request : String × Bool :=
      match snapshot_name with
      | some n => (n, false)
      | none =>
        match names_at names net_id with
        | some n => (n, false)
        | none => ("", true)
    match fetch_app_object name_and_request.1 with
    | none =>
        { skip_object := true, registered := false, net_id_assigned := false
          requested_full_snapshot := name_and_request.2, vars_committed := false
          objects_names := names }
    | some _ =>
        { skip_object := false, registered := true, net_id_assigned := true
          requested_full_snapshot := name_and_request.2, vars_committed := true
          objects_names := names }

/-- The loop invariant of the per-peer fold of
`ServerSynchronizer::process_snapshot_notificator`: each snapshot kind was
generated at most once and exactly when first needed, every emitted send
reuses the lazily generated body of its kind, every send's header input id is
the one derived from the recipient's own controller in the original peer map,
and the fold only ever touches the snapshot flags of the peer map (the
controller assignment is untouched). -/
def NotifInv (orig : List (Int × PeerData)) (gen : Bool → Nat) (objects : List Nat)
    (ctrl_input : Nat → Nat) (acc : NotifAcc) : Prop :=
  (acc.gen_calls.count true = if acc.full_generated then 1 else 0) ∧
  (acc.gen_calls.count false = if acc.delta_generated then 1 else 0) ∧
  (acc.full_generated = true ↔ ∃ s ∈ acc.sends, s.is_full = true) ∧
  (acc.delta_generated = true ↔ ∃ s ∈ acc.sends, s.is_full = false) ∧
  (∀ s ∈ acc.sends, s.body = gen s.is_full) ∧
  (∀ s ∈ acc.sends, ∃ pd, lookup_peer orig s.peer = some pd ∧
      s.header_input_id = peer_header_input_id objects ctrl_input pd) ∧
  (∀ q, (lookup_peer acc.peers_map q).map PeerData.controller_id
      = (lookup_peer orig q).map PeerData.controller_id)

/-- A content-free snapshot with the given input id, used by the concrete
instances below. -/
def exSnap (i : Nat) : Snapshot := ⟨i, [], false, Value.nil⟩

/-- A snapshot with the given input id carrying one recorded variable row. -/
def exSnapV (i : Nat) : Snapshot := ⟨i, [[⟨"v", Value.int 1⟩]], false, Value.nil⟩

/-- A listener on variable 0 of object 0 accepting ordinary changes. -/
def exListener : ChangesListener := ⟨NetEventFlag.CHANGE, true, [⟨0, 0, false⟩], [Value.nil]⟩

/-- A listener state holding only `exListener`. -/
def exListenerState : ListenerState := ⟨[exListener], 0⟩

/-- A current-value read returning 9 everywhere. -/
def exCurrent : Nat → Nat → Value := fun _ _ => Value.int 9

/-- A peer with no controller, sitting in the global group. -/
def exPeerData : PeerData := ⟨none, 0, false, false⟩

/-- A server with peer 1 subscribed to the global group and no other group. -/
def exServerState : ServerState := ⟨[(1, exPeerData)], [⟨[], [], [1]⟩], []⟩

/-- A server with peer 1 subscribed to the global group and one empty extra
group. -/
def exServerState2 : ServerState := ⟨[(1, exPeerData)], [⟨[], [], [1]⟩, ⟨[], [], []⟩], []⟩

/-- A deferred interpolation stream between epochs 5 and 10 whose alpha
overshot to 2. -/
def exStream : DeferredSyncInterpolationData := ⟨5, 10, 1 / 5, 2, [true], [true, true]⟩

/-- A snapshot generator producing distinct full and delta bodies. -/
def exGen : Bool → Nat := fun b => if b then 100 else 50

/-- A controller input id read returning 77. -/
def exCtrl : Nat → Nat := fun _ => 77

/-- A peer map with peer 1 (controller object 4, needing a forced full
snapshot) and peer 2 (no controller). -/
def exPeersMap : List (Int × PeerData) := [(1, ⟨some 4, 1, true, true⟩), (2, ⟨none, 1, false, false⟩)]

/-- A comparison oracle that always reports matching snapshots. -/
def exCmp : Snapshot → Snapshot → CompareOutcome := fun _ _ => CompareOutcome.equal

/-- The state reached by `sync_group_move_peer_to` right after the peer-list
surgery, the flag setting and the group-id recording, before the optional
controller-object insertion: used to state facts about the move. -/
def move_peer_base (st : ServerState) (peer : Int) (gid : Nat) (pd : PeerData) :
    ServerState :=
  { st with
    peer_data := set_peer (set_peer st.peer_data peer { pd with sync_group_id := gid }) peer { pd with sync_group_id := gid, force_notify_snapshot := true, need_full_snapshot := true }
    sync_groups := update_group gid (fun g => { g with peers := g.peers ++ [peer] })
      (st.sync_groups.map (fun g => { g with peers := g.peers.erase peer })) }

/-! ## Theorems -/

/-- C10.  The client's server snapshot queue keeps its order under
`store_controllers_snapshot`: an equal input id overwrites the stored back
entry in place and a smaller input id is rejected — but a snapshot with a
*larger* input id than the last stored one is silently dropped as well: the
source's larger-id path falls through its `ERR_FAIL_COND_MSG` and returns
without any `push_back`, so the claimed append never happens.  Evaluated here
at the failing input (queue holding id 5, incoming id 6). -/
theorem store_controllers_snapshot_eval :
    store_controllers_snapshot true (exSnapV 5) [exSnap 5] = [exSnapV 5] ∧
    store_controllers_snapshot true (exSnap 4) [exSnap 5] = [exSnap 5] ∧
    store_controllers_snapshot true (exSnap 6) [exSnap 5] = [exSnap 5] ∧
    store_controllers_snapshot true (exSnap 6) [exSnap 5] ≠ [exSnap 5, exSnap 6] := by
  refine ⟨rfl, rfl, rfl, ?_⟩
  decide

/-- C4.  A change batch records the pre-change value 7 for the watched
variable via `change_event_add`, but at flush time the listener receives the
*current* value 9 instead: the recording loop of `change_event_add` iterates
`watching_vars` by value, so the `old_set` marker it writes is lost and the
flush defaulting overwrites the recorded old value.  The claimed delivery of
the recorded pre-change value does not happen. -/
theorem change_events_flush_loses_recorded_old_value :
    (change_events_flush exCurrent
        (change_event_add (change_events_begin exListenerState NetEventFlag.CHANGE)
          0 0 (Value.int 7))).2 = [[Value.int 9]] ∧
    [[Value.int 9]] ≠ [[Value.int 7]] := by
  refine ⟨rfl, ?_⟩
  decide

/-- C3 (counterexample).  Both configuration errors mutate state:
`register_variable` with a variable the host cannot read still appends a
slot, and `sync_group_move_peer_to` towards the nonexistent group 7 records
group 7 on the peer and erases it from the global group's peer list. -/
theorem config_errors_mutate_state :
    (register_variable (fun _ => none) ⟨[]⟩ "speed").vars ≠ [] ∧
    sync_group_move_peer_to exServerState 1 7 ≠ exServerState := by
  decide

/-- C3 (amended).  What the configuration errors actually do:
`register_variable` on an unreadable variable appends a fresh enabled slot
holding the nil value, and `sync_group_move_peer_to` towards a nonexistent
group id records that id on the peer and removes the peer from every group's
peer list, adding it to none. -/
theorem config_error_effects
    (get_variable : String → Option Value) (od : ObjectData) (p_variable : String)
    (st : ServerState) (peer : Int) (gid : Nat) (pd : PeerData)
    (hfind : od.find_variable_id p_variable = none)
    (hget : get_variable p_variable = none)
    (hpd : lookup_peer st.peer_data peer = some pd)
    (hdiff : pd.sync_group_id ≠ gid)
    (hum : gid ≠ UINT32MAX)
    (hlen : st.sync_groups.length ≤ gid) :
    (register_variable get_variable od p_variable).vars
        = od.vars ++ [⟨od.vars.length, p_variable, Value.nil, false, true⟩] ∧
    sync_group_move_peer_to st peer gid =
      { st with
        peer_data := set_peer st.peer_data peer { pd with sync_group_id := gid }
        sync_groups := st.sync_groups.map
          (fun g => { g with peers := g.peers.erase peer }) } := by
  constructor
  · simp only [register_variable, hfind, hget]
  · simp only [sync_group_move_peer_to, hpd]
    rw [if_neg hdiff, if_neg hum, if_pos]
    simpa using hlen

/-- C3 (witness). -/
theorem config_error_effects_witness :
    (register_variable (fun _ => none) ⟨[]⟩ "speed").vars
        = [] ++ [⟨0, "speed", Value.nil, false, true⟩] ∧
    sync_group_move_peer_to exServerState 1 7 =
      { exServerState with
        peer_data := set_peer exServerState.peer_data 1 { exPeerData with sync_group_id := 7 }
        sync_groups := exServerState.sync_groups.map
          (fun g => { g with peers := g.peers.erase 1 }) } :=
  config_error_effects (fun _ => none) ⟨[]⟩ "speed" exServerState 1 7 exPeerData
    rfl rfl rfl (by decide) (by decide) (by decide)

/-- C7 (counterexample).  On receipt of a deferred-sync packet with a newer
epoch (14 after 10) the past buffer is *not* the old future buffer: it is
freshly collected from the object's current state, which here differs from
the previously received future buffer. -/
theorem receive_deferred_past_buffer_not_old_future :
    exStream.future_epoch < 14 ∧
    (receive_deferred_sync_for_object 14 [false, false] [false] exStream).past_epoch_buffer
      ≠ exStream.future_epoch_buffer := by
  decide

/-- C7 (amended).  On a packet with a newer epoch the old future *epoch*
becomes the past epoch while the past *buffer* is re-collected from the
object's current state via `collect_epoch`; the received buffer and epoch
become the new future, the alpha step becomes `1 / (future − past)` and
alpha resets to 0.  Each tick, a stream whose alpha exceeds 1.2 is skipped;
otherwise alpha advances by the alpha step and `apply_epoch` is invoked with
the advanced alpha and the two buffers. -/
theorem deferred_sync_interpolation_step (epoch : Nat) (buf cur : List Bool)
    (s : DeferredSyncInterpolationData) :
    (s.future_epoch < epoch →
      receive_deferred_sync_for_object epoch buf cur s =
        ⟨s.future_epoch, epoch, 1 / ((epoch : ℚ) - (s.future_epoch : ℚ)), 0, cur, buf⟩) ∧
    ((6 : ℚ) / 5 < s.alpha → process_deferred_stream s = (s, none)) ∧
    (s.alpha ≤ (6 : ℚ) / 5 → process_deferred_stream s =
      ({ s with alpha := s.alpha + s.alpha_advacing_per_epoch },
        some (s.alpha + s.alpha_advacing_per_epoch, s.past_epoch_buffer,
          s.future_epoch_buffer))) := by
  refine ⟨fun h => ?_, fun h => ?_, fun h => ?_⟩
  · simp only [receive_deferred_sync_for_object]
    rw [if_pos h]
  · simp only [process_deferred_stream]
    rw [if_pos h]
  · simp only [process_deferred_stream]
    rw [if_neg (not_lt.mpr h)]

/-- C7 (witness). -/
theorem deferred_sync_interpolation_step_witness :
    receive_deferred_sync_for_object 14 [false, false] [false] exStream =
      ⟨10, 14, 1 / ((14 : ℚ) - (10 : ℚ)), 0, [false], [false, false]⟩ ∧
    process_deferred_stream exStream = (exStream, none) :=
  ⟨(deferred_sync_interpolation_step 14 [false, false] [false] exStream).1 (by decide),
    (deferred_sync_interpolation_step 14 [false, false] [false] exStream).2.1
      (by norm_num [exStream])⟩

/-- C9 (counterexample).  A snapshot record for unknown net id 7 carrying the
name "X" which the host resolver cannot resolve: the record's variables are
skipped, but no full snapshot is requested — contrary to the claim that a
resolution failure requests one. -/
theorem parse_unknown_object_no_request_on_resolve_failure :
    (parse_object_record false [] (fun _ => none) 7 (some "X")).skip_object = true ∧
    (parse_object_record false [] (fun _ => none) 7 (some "X")).requested_full_snapshot
      = false := by
  decide

/-- C9 (amended).  Parsing a record for an unknown object: when the name (from
the record, or remembered from an earlier record) resolves, the object is
registered, the received net id assigned and the variables applied; when the
name is known but fails to resolve, the variable records are skipped without
requesting a full snapshot; a full snapshot is requested only when no name
for the net id can be determined at all (in which case the resolution is
still attempted on the empty name). -/
theorem parse_object_record_resolution (objects_names : List (Nat × String))
    (fetch : String → Option Nat) (net_id : Nat) (n : String) (h : Nat) :
    (fetch n = some h →
      parse_object_record false objects_names fetch net_id (some n) =
        ⟨false, true, true, false, true, names_insert objects_names net_id n⟩) ∧
    (fetch n = none →
      parse_object_record false objects_names fetch net_id (some n) =
        ⟨true, false, false, false, false, names_insert objects_names net_id n⟩) ∧
    (names_at objects_names net_id = some n → fetch n = some h →
      parse_object_record false objects_names fetch net_id none =
        ⟨false, true, true, false, true, objects_names⟩) ∧
    (names_at objects_names net_id = some n → fetch n = none →
      parse_object_record false objects_names fetch net_id none =
        ⟨true, false, false, false, false, objects_names⟩) ∧
    (names_at objects_names net_id = none → fetch "" = none →
      parse_object_record false objects_names fetch net_id none =
        ⟨true, false, false, true, false, objects_names⟩) := by
  refine ⟨fun hf => ?_, fun hf => ?_, fun hn hf => ?_, fun hn hf => ?_, fun hn hf => ?_⟩
  · simp [parse_object_record, hf]
  · simp [parse_object_record, hf]
  · simp [parse_object_record, hn, hf]
  · simp [parse_object_record, hn, hf]
  · simp [parse_object_record, hn, hf]

/-- C9 (witness). -/
theorem parse_object_record_resolution_witness :
    parse_object_record false [] (fun s => if s == "X" then some 3 else none) 7 (some "X") =
      ⟨false, true, true, false, true, names_insert [] 7 "X"⟩ :=
  (parse_object_record_resolution [] (fun s => if s == "X" then some 3 else none)
    7 "X" 3).1 (by decide)

/-- C2.  When the newest queued server snapshot carries no input id
(`UINT32_MAX`), the reconciliation applies it right away with
`SYNC_RECOVER`, clears both snapshot queues and returns: no comparison, no
`state_validated`, no rewind events. -/
theorem process_received_server_state_no_input_id
    (cmp : Snapshot → Snapshot → CompareOutcome) (resim : Snapshot → Snapshot)
    (st : ClientState) (newest : Snapshot)
    (hlast : st.server_snapshots.getLast? = some newest)
    (hid : newest.input_id = UINT32MAX) :
    process_received_server_state cmp resim st =
      (⟨[], [], st.has_player_controller⟩,
        [ClientEvent.applySnapshot newest NetEventFlag.SYNC_RECOVER false]) := by
  simp only [process_received_server_state, hlast]
  rw [if_pos hid]

/-- C2 (witness). -/
theorem process_received_server_state_no_input_id_witness :
    process_received_server_state exCmp id ⟨[exSnap 3, exSnap UINT32MAX], [exSnap 3], true⟩ =
      (⟨[], [], true⟩,
        [ClientEvent.applySnapshot (exSnap UINT32MAX) NetEventFlag.SYNC_RECOVER false]) :=
  process_received_server_state_no_input_id exCmp id
    ⟨[exSnap 3, exSnap UINT32MAX], [exSnap 3], true⟩ (exSnap UINT32MAX) (by decide) (by decide)

/-- C6.  The global sync group: a freshly registered object lands in group
0's realtime list, and each of the four user-facing membership mutations on
group 0 (add node, remove node, replace nodes, remove all nodes) fails
before touching any state. -/
theorem global_group_membership (st : ServerState) (net_id : Nat)
    (controller_peer : Option Int) (od : Option Nat) (realtime : Bool)
    (new_realtime new_deferred : List Nat)
    (hne : st.sync_groups ≠ []) :
    (∃ g0, (server_on_object_data_added st net_id controller_peer).sync_groups[0]? = some g0 ∧
        net_id ∈ g0.realtime_nodes) ∧
    server_sync_group_add_node st od GLOBAL_SYNC_GROUP_ID realtime = st ∧
    server_sync_group_remove_node st od GLOBAL_SYNC_GROUP_ID = st ∧
    server_sync_group_replace_nodes st GLOBAL_SYNC_GROUP_ID new_realtime new_deferred = st ∧
    server_sync_group_remove_all_nodes st GLOBAL_SYNC_GROUP_ID = st := by
  obtain ⟨g, gs, hgs⟩ : ∃ g gs, st.sync_groups = g :: gs := by
    cases h : st.sync_groups with
    | nil => exact absurd h hne
    | cons a l => exact ⟨a, l, rfl⟩
  refine ⟨?_, ?_, ?_, ?_, ?_⟩
  · refine ⟨g.add_new_node net_id true, ?_, ?_⟩
    · simp only [server_on_object_data_added, hgs, GLOBAL_SYNC_GROUP_ID, update_group]
      cases controller_peer with
      | none => simp
      | some peer =>
        cases h2 : lookup_peer st.peer_data peer with
        | none => simp [h2]
        | some pd => simp [h2]
    · simp only [SyncGroup.add_new_node, if_pos rfl]
      by_cases hmem : net_id ∈ g.realtime_nodes
      · simp [hmem]
      · simp [hmem]
  · cases od with
    | none => rfl
    | some n =>
      simp only [server_sync_group_add_node]
      by_cases hlen : st.sync_groups.length ≤ GLOBAL_SYNC_GROUP_ID
      · rw [if_pos hlen]
      · rw [if_neg hlen]
        simp
  · cases od with
    | none => rfl
    | some n =>
      simp only [server_sync_group_remove_node]
      by_cases hlen : st.sync_groups.length ≤ GLOBAL_SYNC_GROUP_ID
      · rw [if_pos hlen]
      · rw [if_neg hlen]
        simp
  · simp only [server_sync_group_replace_nodes]
    by_cases hlen : st.sync_groups.length ≤ GLOBAL_SYNC_GROUP_ID
    · rw [if_pos hlen]
    · rw [if_neg hlen]
      simp
  · simp only [server_sync_group_remove_all_nodes]
    by_cases hlen : st.sync_groups.length ≤ GLOBAL_SYNC_GROUP_ID
    · rw [if_pos hlen]
    · rw [if_neg hlen]
      simp

/-- C6 (witness). -/
theorem global_group_membership_witness :
    (∃ g0, (server_on_object_data_added exServerState 9 none).sync_groups[0]? = some g0 ∧
        9 ∈ g0.realtime_nodes) ∧
    server_sync_group_add_node exServerState (some 9) GLOBAL_SYNC_GROUP_ID true
      = exServerState ∧
    server_sync_group_remove_node exServerState (some 9) GLOBAL_SYNC_GROUP_ID
      = exServerState ∧
    server_sync_group_replace_nodes exServerState GLOBAL_SYNC_GROUP_ID [1] [2]
      = exServerState ∧
    server_sync_group_remove_all_nodes exServerState GLOBAL_SYNC_GROUP_ID
      = exServerState :=
  global_group_membership exServerState 9 none (some 9) true [1] [2] (by decide)

/-- C1 (counterexample).  Server queue holding one snapshot with input id 5,
empty client queue: no input id is present in both queues, yet the
reconciliation does not leave the queues unchanged — the paused-controller
branch applies the newest server snapshot and empties the server queue. -/
theorem reconcile_no_common_id_counterexample :
    (exSnap 5).input_id ≠ UINT32MAX ∧
    common_input_ids ⟨[exSnap 5], [], true⟩ = [] ∧
    process_received_server_state exCmp id ⟨[exSnap 5], [], true⟩
      ≠ (⟨[exSnap 5], [], true⟩, []) := by
  decide

/-- Helper: the last element of a list is one of its members. -/
theorem mem_of_getLast?_eq_some {α : Type} {l : List α} {a : α}
    (h : l.getLast? = some a) : a ∈ l := by
  induction l with
  | nil => simp at h
  | cons x t ih =>
    cases t with
    | nil =>
      simp only [List.getLast?_singleton, Option.some.injEq] at h
      simp [h]
    | cons y u =>
      rw [List.getLast?_cons_cons] at h
      exact List.mem_cons_of_mem x (ih h)

/-- Helper: on a queue strictly sorted by input id, popping the entries older
than `m` from the front is the same as keeping the entries with input id at
least `m`. -/
theorem dropWhile_lt_eq_filter_of_sorted (m : Nat) (l : List Snapshot)
    (hl : l.Pairwise (fun a b => a.input_id < b.input_id)) :
    l.dropWhile (fun s => s.input_id < m) = l.filter (fun s => m ≤ s.input_id) := by
  induction l with
  | nil => rfl
  | cons a t ih =>
    rw [List.pairwise_cons] at hl
    by_cases ha : a.input_id < m
    · rw [List.dropWhile_cons_of_pos (by simpa using ha),
        List.filter_cons_of_neg (by simpa using not_le.mpr ha)]
      exact ih hl.2
    · rw [List.dropWhile_cons_of_neg (by simpa using ha),
        List.filter_cons_of_pos (by simpa using not_lt.mp ha)]
      congr 1
      refine ((List.filter_eq_self).mpr ?_).symm
      intro b hb
      have hab := hl.1 b hb
      exact decide_eq_true (le_trans (not_lt.mp ha) (le_of_lt hab))

/-- Helper: on a list strictly descending by input id, the first entry found
by `find?` carries the largest input id among all entries satisfying the
predicate. -/
theorem find?_max_of_sorted_desc (p : Snapshot → Bool) (l : List Snapshot)
    (hl : l.Pairwise (fun a b => b.input_id < a.input_id)) (x : Snapshot)
    (hx : l.find? p = some x) :
    ∀ y ∈ l, p y = true → y.input_id ≤ x.input_id := by
  induction l with
  | nil => simp at hx
  | cons a t ih =>
    rw [List.pairwise_cons] at hl
    intro y hy hpy
    by_cases hpa : p a = true
    · rw [List.find?_cons_of_pos _ hpa] at hx
      cases hx
      rcases List.mem_cons.mp hy with h | h
      · subst h; exact le_refl _
      · exact le_of_lt (hl.1 y h)
    · rw [List.find?_cons_of_neg _ (by simpa using hpa)] at hx
      rcases List.mem_cons.mp hy with h | h
      · subst h; exact absurd hpy hpa
      · exact ih hl.2 hx y h hpy

/-- Helper: membership in the common-input-id list. -/
theorem mem_common_input_ids (st : ClientState) (i : Nat) :
    i ∈ common_input_ids st ↔
      (∃ s ∈ st.server_snapshots, s.input_id = i) ∧
      (∃ c ∈ st.client_snapshots, c.input_id = i) := by
  simp only [common_input_ids, List.mem_filter, List.mem_map]
  constructor
  · rintro ⟨⟨s, hs, rfl⟩, hcont⟩
    rcases List.contains_iff_exists_mem_beq.mp hcont with ⟨j, hj, hbe⟩
    rcases List.mem_map.mp hj with ⟨c, hc, rfl⟩
    exact ⟨⟨s, hs, rfl⟩, ⟨c, hc, (beq_iff_eq.mp hbe).symm⟩⟩
  · rintro ⟨⟨s, hs, rfl⟩, c, hc, hci⟩
    refine ⟨⟨s, hs, rfl⟩, List.contains_iff_exists_mem_beq.mpr ?_⟩
    exact ⟨c.input_id, List.mem_map.mpr ⟨c, hc, rfl⟩, by simp [hci]⟩

/-- C1 (amended).  With a player controller and a non-empty client snapshot
queue, the reconciliation selects the largest input id present in both
queues, drops every older entry from the front of both queues, and enters the
compare/repair phase on the dropped queues; when no common input id exists it
leaves both queues unchanged and performs no repair.  (With an empty client
queue the paused-controller recovery applies the newest server snapshot
instead — see the counterexample.) -/
theorem process_received_server_state_reconcile
    (cmp : Snapshot → Snapshot → CompareOutcome) (resim : Snapshot → Snapshot)
    (st : ClientState)
    (hss : st.server_snapshots.Pairwise (fun a b => a.input_id < b.input_id))
    (hcs : st.client_snapshots.Pairwise (fun a b => a.input_id < b.input_id))
    (hsu : ∀ s ∈ st.server_snapshots, s.input_id < UINT32MAX)
    (hne : st.server_snapshots ≠ [])
    (hpc : st.has_player_controller = true)
    (hcne : st.client_snapshots ≠ []) :
    (common_input_ids st = [] → process_received_server_state cmp resim st = (st, [])) ∧
    (common_input_ids st ≠ [] → ∃ m, m ∈ common_input_ids st ∧
      (∀ i ∈ common_input_ids st, i ≤ m) ∧
      process_received_server_state cmp resim st =
        pcr_check_phase cmp resim m st.has_player_controller
          (st.server_snapshots.filter (fun s => m ≤ s.input_id))
          (st.client_snapshots.filter (fun c => m ≤ c.input_id))) := by
  obtain ⟨newest, hg⟩ : ∃ newest, st.server_snapshots.getLast? = some newest := by
    cases hg : st.server_snapshots.getLast? with
    | none => exact absurd (List.getLast?_eq_none_iff.mp hg) hne
    | some a => exact ⟨a, rfl⟩
  have hnu : ¬ newest.input_id = UINT32MAX :=
    Nat.ne_of_lt (hsu newest (mem_of_getLast?_eq_some hg))
  have hpcf : ¬ st.has_player_controller = false := by simp [hpc]
  have hcef : ¬ st.client_snapshots.isEmpty = true := by
    simpa [List.isEmpty_iff] using hcne
  have hunfold : process_received_server_state cmp resim st =
      (if find_checkable_input_id st.server_snapshots st.client_snapshots = UINT32MAX
        then (st, [])
        else
          pcr_check_phase cmp resim
            (find_checkable_input_id st.server_snapshots st.client_snapshots)
            st.has_player_controller
            (st.server_snapshots.dropWhile (fun s =>
              s.input_id < find_checkable_input_id st.server_snapshots st.client_snapshots))
            (st.client_snapshots.dropWhile (fun c =>
              c.input_id < find_checkable_input_id st.server_snapshots st.client_snapshots))) := by
    simp only [process_received_server_state, hg]
    rw [if_neg hnu, if_neg hpcf, if_neg (by simpa using hcef)]
  constructor
  · intro hcom
    rw [hunfold]
    cases hfind : st.server_snapshots.reverse.find?
        (fun s => st.client_snapshots.any (fun c => c.input_id == s.input_id)) with
    | none =>
      rw [if_pos]
      simp [find_checkable_input_id, hfind]
    | some x =>
      exfalso
      have hxmem : x ∈ st.server_snapshots :=
        List.mem_reverse.mp (List.mem_of_find?_eq_some hfind)
      have hpx := List.find?_some hfind
      rcases List.any_eq_true.mp hpx with ⟨c, hc, hbe⟩
      have : x.input_id ∈ common_input_ids st :=
        (mem_common_input_ids st x.input_id).mpr
          ⟨⟨x, hxmem, rfl⟩, ⟨c, hc, beq_iff_eq.mp hbe⟩⟩
      rw [hcom] at this
      exact absurd this (List.not_mem_nil _)
  · intro hcom
    cases hfind : st.server_snapshots.reverse.find?
        (fun s => st.client_snapshots.any (fun c => c.input_id == s.input_id)) with
    | none =>
      exfalso
      apply hcom
      have hall := List.find?_eq_none.mp hfind
      refine List.eq_nil_iff_forall_not_mem.mpr ?_
      intro i hi
      rcases (mem_common_input_ids st i).mp hi with ⟨⟨s, hs, rfl⟩, c, hc, hci⟩
      refine hall s (List.mem_reverse.mpr hs) ?_
      exact List.any_eq_true.mpr ⟨c, hc, by simp [hci]⟩
    | some x =>
      have hck : find_checkable_input_id st.server_snapshots st.client_snapshots
          = x.input_id := by
        simp [find_checkable_input_id, hfind]
      have hxmem : x ∈ st.server_snapshots :=
        List.mem_reverse.mp (List.mem_of_find?_eq_some hfind)
      have hxu : ¬ x.input_id = UINT32MAX := Nat.ne_of_lt (hsu x hxmem)
      refine ⟨x.input_id, ?_, ?_, ?_⟩
      · have hpx := List.find?_some hfind
        rcases List.any_eq_true.mp hpx with ⟨c, hc, hbe⟩
        exact (mem_common_input_ids st x.input_id).mpr
          ⟨⟨x, hxmem, rfl⟩, ⟨c, hc, beq_iff_eq.mp hbe⟩⟩
      · intro i hi
        rcases (mem_common_input_ids st i).mp hi with ⟨⟨s, hs, rfl⟩, c, hc, hci⟩
        have hdesc : st.server_snapshots.reverse.Pairwise
            (fun a b => b.input_id < a.input_id) := by
          rw [List.pairwise_reverse]
          exact hss
        refine find?_max_of_sorted_desc _ _ hdesc x hfind s (List.mem_reverse.mpr hs) ?_
        exact List.any_eq_true.mpr ⟨c, hc, by simp [hci]⟩
      · rw [hunfold, if_neg (by rw [hck]; exact hxu), hck,
          dropWhile_lt_eq_filter_of_sorted _ _ hss,
          dropWhile_lt_eq_filter_of_sorted _ _ hcs]

/-- C1 (witness). -/
theorem process_received_server_state_reconcile_witness :
    common_input_ids ⟨[exSnap 3, exSnap 5], [exSnap 3, exSnap 4, exSnap 5], true⟩ ≠ [] ∧
    ∃ m, m ∈ common_input_ids ⟨[exSnap 3, exSnap 5], [exSnap 3, exSnap 4, exSnap 5], true⟩ ∧
      (∀ i ∈ common_input_ids ⟨[exSnap 3, exSnap 5], [exSnap 3, exSnap 4, exSnap 5], true⟩,
        i ≤ m) ∧
      process_received_server_state exCmp id
          ⟨[exSnap 3, exSnap 5], [exSnap 3, exSnap 4, exSnap 5], true⟩ =
        pcr_check_phase exCmp id m true
          ([exSnap 3, exSnap 5].filter (fun s => m ≤ s.input_id))
          ([exSnap 3, exSnap 4, exSnap 5].filter (fun c => m ≤ c.input_id)) :=
  ⟨by decide,
    (process_received_server_state_reconcile exCmp id
      ⟨[exSnap 3, exSnap 5], [exSnap 3, exSnap 4, exSnap 5], true⟩
      (by decide) (by decide) (by decide) (by decide) (by decide) (by decide)).2
      (by decide)⟩

/-- Helper: updating one peer's record leaves the lookup of any other peer
unchanged. -/
theorem lookup_set_peer_ne (m : List (Int × PeerData)) (p q : Int) (pd : PeerData)
    (h : q ≠ p) : lookup_peer (set_peer m p pd) q = lookup_peer m q := by
  induction m with
  | nil => rfl
  | cons e rest ih =>
    by_cases hep : e.1 = p
    · simp only [set_peer, if_pos hep, lookup_peer, List.find?_cons]
      have hpq : (p == q) = false := by simpa using fun he => h he.symm
      have heq : (e.1 == q) = false := by
        subst hep
        simpa using fun he => h he.symm
      simp [hpq, heq]
    · simp only [set_peer, if_neg hep, lookup_peer, List.find?_cons]
      cases heq : e.1 == q with
      | true => simp [heq]
      | false =>
        simp only [heq]
        exact ih

/-- Helper: updating a present peer's record makes the lookup return the new
record. -/
theorem lookup_set_peer_eq (m : List (Int × PeerData)) (p : Int) (pd0 pd : PeerData)
    (h : lookup_peer m p = some pd0) : lookup_peer (set_peer m p pd) p = some pd := by
  induction m with
  | nil => simp [lookup_peer] at h
  | cons e rest ih =>
    by_cases hep : e.1 = p
    · simp [set_peer, if_pos hep, lookup_peer, List.find?_cons]
    · have heq : (e.1 == p) = false := by simpa using hep
      simp only [lookup_peer, List.find?_cons, heq] at h
      simp only [set_peer, if_neg hep, lookup_peer, List.find?_cons, heq]
      exact ih h

/-- Helper: one notificator step only appends to the emitted sends. -/
theorem process_group_peer_sends_prefix (gen : Bool → Nat) (objects : List Nat)
    (ctrl_input : Nat → Nat) (notify_state : Bool) (acc : NotifAcc) (peer : Int) :
    ∃ tail, (process_group_peer gen objects ctrl_input notify_state acc peer).sends
      = acc.sends ++ tail := by
  cases hpd : lookup_peer acc.peers_map peer with
  | none => exact ⟨[], by simp [process_group_peer, hpd]⟩
  | some pd =>
    by_cases hf : pd.force_notify_snapshot = false ∧ notify_state = false
    · exact ⟨[], by simp [process_group_peer, hpd, hf]⟩
    · by_cases hn : pd.need_full_snapshot
      · exact ⟨[⟨peer, peer_header_input_id objects ctrl_input pd, true, gen true⟩],
          by simp [process_group_peer, hpd, hf, hn]⟩
      · exact ⟨[⟨peer, peer_header_input_id objects ctrl_input pd, false, gen false⟩],
          by simp [process_group_peer, hpd, hf, hn]⟩

/-- Helper: sends already emitted survive the rest of the notificator fold. -/
theorem foldl_sends_mono (gen : Bool → Nat) (objects : List Nat)
    (ctrl_input : Nat → Nat) (notify_state : Bool) :
    ∀ (l : List Int) (acc : NotifAcc) (s : SnapshotSend),
      s ∈ acc.sends →
      s ∈ (l.foldl (process_group_peer gen objects ctrl_input notify_state) acc).sends := by
  intro l
  induction l with
  | nil => intro acc s hs; simpa using hs
  | cons a t ih =>
    intro acc s hs
    rw [List.foldl_cons]
    refine ih _ s ?_
    rcases process_group_peer_sends_prefix gen objects ctrl_input notify_state acc a with
      ⟨tail, htail⟩
    rw [htail]
    exact List.mem_append_left _ hs

/-- Helper: one notificator step does not touch the map entry of any other
peer. -/
theorem process_group_peer_lookup_ne (gen : Bool → Nat) (objects : List Nat)
    (ctrl_input : Nat → Nat) (notify_state : Bool) (acc : NotifAcc) (p q : Int)
    (h : q ≠ p) :
    lookup_peer (process_group_peer gen objects ctrl_input notify_state acc p).peers_map q
      = lookup_peer acc.peers_map q := by
  cases hpd : lookup_peer acc.peers_map p with
  | none => simp [process_group_peer, hpd]
  | some pd =>
    by_cases hf : pd.force_notify_snapshot = false ∧ notify_state = false
    · simp [process_group_peer, hpd, hf]
    · by_cases hn : pd.need_full_snapshot
      · simp only [process_group_peer, hpd, if_neg hf, if_pos hn]
        exact lookup_set_peer_ne _ _ _ _ h
      · simp only [process_group_peer, hpd, if_neg hf, if_neg hn]
        exact lookup_set_peer_ne _ _ _ _ h

/-- Helper: a peer recorded in the map with both snapshot flags set receives a
full-snapshot send when the notificator fold reaches it. -/
theorem foldl_emits_full (gen : Bool → Nat) (objects : List Nat)
    (ctrl_input : Nat → Nat) (notify_state : Bool) :
    ∀ (l : List Int) (acc : NotifAcc) (peer : Int) (pd : PeerData),
      lookup_peer acc.peers_map peer = some pd →
      pd.force_notify_snapshot = true → pd.need_full_snapshot = true →
      peer ∈ l →
      ∃ s ∈ (l.foldl (process_group_peer gen objects ctrl_input notify_state) acc).sends,
        s.peer = peer ∧ s.is_full = true := by
  intro l
  induction l with
  | nil => intro acc peer pd _ _ _ hmem; simp at hmem
  | cons a t ih =>
    intro acc peer pd hpd hforce hneed hmem
    rw [List.foldl_cons]
    by_cases hap : a = peer
    · subst hap
      have hs : (⟨a, peer_header_input_id objects ctrl_input pd, true, gen true⟩ :
            SnapshotSend)
          ∈ (process_group_peer gen objects ctrl_input notify_state acc a).sends := by
        simp [process_group_peer, hpd, hforce, hneed]
      exact ⟨_, foldl_sends_mono gen objects ctrl_input notify_state t _ _ hs, rfl, rfl⟩
    · rcases List.mem_cons.mp hmem with h | h
      · exact absurd h.symm hap
      · refine ih _ peer pd ?_ hforce hneed h
        rw [process_group_peer_lookup_ne gen objects ctrl_input notify_state acc a peer
          (fun he => hap he.symm)]
        exact hpd

/-- Helper: the header input id depends only on the peer's controller
assignment. -/
theorem peer_header_input_id_congr (objects : List Nat) (ctrl_input : Nat → Nat)
    (pd pd' : PeerData) (h : pd.controller_id = pd'.controller_id) :
    peer_header_input_id objects ctrl_input pd
      = peer_header_input_id objects ctrl_input pd' := by
  simp [peer_header_input_id, h]

/-- Helper: one notificator step preserves the lazy-generation invariant. -/
theorem process_group_peer_inv (orig : List (Int × PeerData)) (gen : Bool → Nat)
    (objects : List Nat) (ctrl_input : Nat → Nat) (notify_state : Bool)
    (acc : NotifAcc) (p : Int)
    (hinv : NotifInv orig gen objects ctrl_input acc) :
    NotifInv orig gen objects ctrl_input
      (process_group_peer gen objects ctrl_input notify_state acc p) := by
  obtain ⟨h1, h2, h3, h4, h5, h6, h7⟩ := hinv
  cases hpd : lookup_peer acc.peers_map p with
  | none =>
    simpa [process_group_peer, hpd] using ⟨h1, h2, h3, h4, h5, h6, h7⟩
  | some pd =>
    by_cases hf : pd.force_notify_snapshot = false ∧ notify_state = false
    · simpa [process_group_peer, hpd, hf] using ⟨h1, h2, h3, h4, h5, h6, h7⟩
    · have horig : ∃ pd', lookup_peer orig p = some pd' ∧
          pd.controller_id = pd'.controller_id := by
        have := h7 p
        rw [hpd] at this
        cases hq : lookup_peer orig p with
        | none => rw [hq] at this; simp at this
        | some pd' =>
          rw [hq] at this
          exact ⟨pd', rfl, by simpa using this⟩
      rcases horig with ⟨pdo, hpdo, hco⟩
      have hheader : peer_header_input_id objects ctrl_input pd
          = peer_header_input_id objects ctrl_input pdo :=
        peer_header_input_id_congr objects ctrl_input pd pdo hco
      by_cases hn : pd.need_full_snapshot
      · simp only [process_group_peer, hpd, if_neg hf, if_pos hn]
        refine ⟨?_, ?_, ?_, ?_, ?_, ?_, ?_⟩
        · by_cases hfg : acc.full_generated = true
          · rw [if_pos hfg]
            simpa [hfg] using h1
          · have h0 : List.count true acc.gen_calls = 0 := by simpa [hfg] using h1
            rw [if_neg hfg, List.count_append, h0]
            simp
        · by_cases hfg : acc.full_generated = true
          · rw [if_pos hfg]
            simpa using h2
          · rw [if_neg hfg, List.count_append]
            simpa using h2
        · constructor
          · intro _
            exact ⟨⟨p, peer_header_input_id objects ctrl_input pd, true, gen true⟩,
              List.mem_append_right _ (List.mem_singleton.mpr rfl), rfl⟩
          · intro _; rfl
        · simp only []
          constructor
          · intro hd
            rcases h4.mp hd with ⟨s, hs, hsf⟩
            exact ⟨s, List.mem_append_left _ hs, hsf⟩
          · intro hex
            rcases hex with ⟨s, hs, hsf⟩
            rcases List.mem_append.mp hs with hs | hs
            · exact h4.mpr ⟨s, hs, hsf⟩
            · rw [List.mem_singleton.mp hs] at hsf
              simp at hsf
        · intro s hs
          rcases List.mem_append.mp hs with hs | hs
          · exact h5 s hs
          · rw [List.mem_singleton.mp hs]
        · intro s hs
          rcases List.mem_append.mp hs with hs | hs
          · exact h6 s hs
          · rw [List.mem_singleton.mp hs]
            exact ⟨pdo, hpdo, hheader⟩
        · intro q
          by_cases hq : q = p
          · subst hq
            rw [lookup_set_peer_eq acc.peers_map q pd _ hpd]
            have := h7 q
            rw [hpd] at this
            simpa using this
          · rw [lookup_set_peer_ne acc.peers_map p q _ hq]
            exact h7 q
      · simp only [process_group_peer, hpd, if_neg hf, if_neg hn]
        refine ⟨?_, ?_, ?_, ?_, ?_, ?_, ?_⟩
        · by_cases hdg : acc.delta_generated = true
          · rw [if_pos hdg]
            simpa using h1
          · rw [if_neg hdg, List.count_append]
            simpa using h1
        · by_cases hdg : acc.delta_generated = true
          · rw [if_pos hdg]
            simpa [hdg] using h2
          · have h0 : List.count false acc.gen_calls = 0 := by simpa [hdg] using h2
            rw [if_neg hdg, List.count_append, h0]
            simp
        · simp only []
          constructor
          · intro hd
            rcases h3.mp hd with ⟨s, hs, hsf⟩
            exact ⟨s, List.mem_append_left _ hs, hsf⟩
          · intro hex
            rcases hex with ⟨s, hs, hsf⟩
            rcases List.mem_append.mp hs with hs | hs
            · exact h3.mpr ⟨s, hs, hsf⟩
            · rw [List.mem_singleton.mp hs] at hsf
              simp at hsf
        · constructor
          · intro _
            exact ⟨⟨p, peer_header_input_id objects ctrl_input pd, false, gen false⟩,
              List.mem_append_right _ (List.mem_singleton.mpr rfl), rfl⟩
          · intro _; rfl
        · intro s hs
          rcases List.mem_append.mp hs with hs | hs
          · exact h5 s hs
          · rw [List.mem_singleton.mp hs]
        · intro s hs
          rcases List.mem_append.mp hs with hs | hs
          · exact h6 s hs
          · rw [List.mem_singleton.mp hs]
            exact ⟨pdo, hpdo, hheader⟩
        · intro q
          by_cases hq : q = p
          · subst hq
            rw [lookup_set_peer_eq acc.peers_map q pd _ hpd]
            have := h7 q
            rw [hpd] at this
            simpa using this
          · rw [lookup_set_peer_ne acc.peers_map p q _ hq]
            exact h7 q

/-- Helper: the notificator fold preserves the lazy-generation invariant. -/
theorem foldl_notif_inv (orig : List (Int × PeerData)) (gen : Bool → Nat)
    (objects : List Nat) (ctrl_input : Nat → Nat) (notify_state : Bool) :
    ∀ (l : List Int) (acc : NotifAcc),
      NotifInv orig gen objects ctrl_input acc →
      NotifInv orig gen objects ctrl_input
        (l.foldl (process_group_peer gen objects ctrl_input notify_state) acc) := by
  intro l
  induction l with
  | nil => intro acc h; simpa using h
  | cons a t ih =>
    intro acc h
    rw [List.foldl_cons]
    exact ih _ (process_group_peer_inv orig gen objects ctrl_input notify_state acc a h)

/-- C8.  Per sync group and tick, the snapshot notificator generates at most
one full body and at most one delta body — lazily, exactly when a first peer
needs that kind — and reuses the body across all emitted sends of that kind,
while each send's header region carries the recipient's own acknowledged
input id (the controller's current input id, or `UINT32_MAX` when the peer
has no controller); thus peers of one group can share a body yet observe
different header input ids. -/
theorem snapshot_notificator_lazy_shared_bodies (gen : Bool → Nat) (objects : List Nat)
    (ctrl_input : Nat → Nat) (notify_state : Bool) (group_peers : List Int)
    (peers_map : List (Int × PeerData)) :
    ((process_snapshot_notificator_group gen objects ctrl_input notify_state group_peers
        peers_map).gen_calls.count true ≤ 1) ∧
    ((process_snapshot_notificator_group gen objects ctrl_input notify_state group_peers
        peers_map).gen_calls.count false ≤ 1) ∧
    ((process_snapshot_notificator_group gen objects ctrl_input notify_state group_peers
        peers_map).full_generated = true ↔
      ∃ s ∈ (process_snapshot_notificator_group gen objects ctrl_input notify_state
          group_peers peers_map).sends, s.is_full = true) ∧
    ((process_snapshot_notificator_group gen objects ctrl_input notify_state group_peers
        peers_map).delta_generated = true ↔
      ∃ s ∈ (process_snapshot_notificator_group gen objects ctrl_input notify_state
          group_peers peers_map).sends, s.is_full = false) ∧
    (∀ s ∈ (process_snapshot_notificator_group gen objects ctrl_input notify_state
        group_peers peers_map).sends, s.body = gen s.is_full) ∧
    (∀ s ∈ (process_snapshot_notificator_group gen objects ctrl_input notify_state
        group_peers peers_map).sends,
      ∃ pd, lookup_peer peers_map s.peer = some pd ∧
        s.header_input_id = peer_header_input_id objects ctrl_input pd) := by
  have hinit : NotifInv peers_map gen objects ctrl_input ⟨peers_map, false, false, [], []⟩ := by
    refine ⟨by simp, by simp, by simp, by simp, by simp, by simp, fun q => rfl⟩
  obtain ⟨h1, h2, h3, h4, h5, h6, _⟩ :=
    foldl_notif_inv peers_map gen objects ctrl_input notify_state group_peers
      ⟨peers_map, false, false, [], []⟩ hinit
  refine ⟨?_, ?_, h3, h4, h5, h6⟩
  · simp only [process_snapshot_notificator_group]
    rw [h1]
    split <;> omega
  · simp only [process_snapshot_notificator_group]
    rw [h2]
    split <;> omega

/-- C8 (witness). -/
theorem snapshot_notificator_lazy_shared_bodies_witness :
    ∃ pd, lookup_peer exPeersMap 1 = some pd ∧
      (77 : Nat) = peer_header_input_id [4] exCtrl pd := by
  have h := snapshot_notificator_lazy_shared_bodies exGen [4] exCtrl true [1, 2] exPeersMap
  have hm : (⟨1, 77, true, 100⟩ : SnapshotSend) ∈
      (process_snapshot_notificator_group exGen [4] exCtrl true [1, 2] exPeersMap).sends := by
    decide
  simpa using h.2.2.2.2.2 ⟨1, 77, true, 100⟩ hm

/-- Helper: adding an object to a group's object lists never touches the
subscribed-peer list. -/
theorem add_new_node_peers (g : SyncGroup) (n : Nat) (r : Bool) :
    (g.add_new_node n r).peers = g.peers := by
  unfold SyncGroup.add_new_node
  split_ifs <;> rfl

/-- Helper: reading the updated slot back out of `update_group`. -/
theorem update_group_getElem_eq (f : SyncGroup → SyncGroup) :
    ∀ (l : List SyncGroup) (i : Nat), (update_group i f l)[i]? = (l[i]?).map f := by
  intro l
  induction l with
  | nil => intro i; simp [update_group]
  | cons a t ih =>
    intro i
    cases i with
    | zero => simp [update_group]
    | succ j => simpa [update_group] using ih j

/-- Helper: `update_group` leaves every other slot alone. -/
theorem update_group_getElem_ne (f : SyncGroup → SyncGroup) :
    ∀ (l : List SyncGroup) (i j : Nat), i ≠ j → (update_group i f l)[j]? = l[j]? := by
  intro l
  induction l with
  | nil => intro i j _; simp [update_group]
  | cons a t ih =>
    intro i j hij
    cases i with
    | zero =>
      cases j with
      | zero => exact absurd rfl hij
      | succ k => simp [update_group]
    | succ i2 =>
      cases j with
      | zero => simp [update_group]
      | succ k => simpa [update_group] using ih i2 k (fun h => hij (by rw [h]))

/-- Helper: updating one slot of a list on which no entry satisfies `p`, with
an update that makes that slot satisfy `p`, yields exactly one satisfying
entry. -/
theorem countP_update_group_of_zero (p : SyncGroup → Bool) (f : SyncGroup → SyncGroup) :
    ∀ (l : List SyncGroup) (i : Nat) (g : SyncGroup),
      l[i]? = some g → l.countP p = 0 → p (f g) = true →
      (update_group i f l).countP p = 1 := by
  intro l
  induction l with
  | nil => intro i g hi _ _; simp at hi
  | cons a t ih =>
    intro i g hi h0 hpf
    rw [List.countP_cons] at h0
    have h0t : t.countP p = 0 := by omega
    have hpa : ¬ p a = true := by
      by_cases hp : p a = true
      · rw [if_pos hp] at h0; omega
      · exact hp
    cases i with
    | zero =>
      simp only [List.getElem?_cons_zero, Option.some.injEq] at hi
      subst hi
      simp [update_group, List.countP_cons, h0t, hpf]
    | succ j =>
      simp only [List.getElem?_cons_succ] at hi
      simp [update_group, List.countP_cons, ih j g hi h0t hpf, hpa]

/-- Helper: a slot update that does not change the predicate leaves the count
unchanged. -/
theorem countP_update_group_congr (p : SyncGroup → Bool) (f : SyncGroup → SyncGroup)
    (hf : ∀ g, p (f g) = p g) :
    ∀ (l : List SyncGroup) (i : Nat),
      (update_group i f l).countP p = l.countP p := by
  intro l
  induction l with
  | nil => intro i; simp [update_group]
  | cons a t ih =>
    intro i
    cases i with
    | zero => simp [update_group, List.countP_cons, hf]
    | succ j => simp [update_group, List.countP_cons, ih j]

/-- Helper: `ServerSynchronizer::sync_group_add_node` never touches the peer
map. -/
theorem server_sync_group_add_node_peer_data (st : ServerState) (od : Option Nat)
    (gid : Nat) (r : Bool) :
    (server_sync_group_add_node st od gid r).peer_data = st.peer_data := by
  cases od with
  | none => rfl
  | some n =>
    simp only [server_sync_group_add_node]
    split_ifs <;> rfl

/-- Helper: `ServerSynchronizer::sync_group_add_node` preserves any count over
the groups that only inspects the peer lists. -/
theorem server_sync_group_add_node_countP (p : SyncGroup → Bool)
    (hp : ∀ g n r2, p (SyncGroup.add_new_node g n r2) = p g)
    (st : ServerState) (od : Option Nat) (gid : Nat) (r : Bool) :
    (server_sync_group_add_node st od gid r).sync_groups.countP p
      = st.sync_groups.countP p := by
  cases od with
  | none => rfl
  | some n =>
    simp only [server_sync_group_add_node]
    split_ifs with hc1 hc2
    · rfl
    · rfl
    · exact countP_update_group_congr p _ (fun g => hp g n r) _ gid

/-- Helper: `ServerSynchronizer::sync_group_add_node` preserves every group's
peer list. -/
theorem server_sync_group_add_node_peers_at (st : ServerState) (od : Option Nat)
    (gid2 : Nat) (r : Bool) (gid : Nat) :
    ((server_sync_group_add_node st od gid2 r).sync_groups[gid]?).map SyncGroup.peers
      = (st.sync_groups[gid]?).map SyncGroup.peers := by
  cases od with
  | none => rfl
  | some n =>
    simp only [server_sync_group_add_node]
    split_ifs with hc1 hc2
    · rfl
    · rfl
    · by_cases hgg : gid2 = gid
      · subst hgg
        rw [update_group_getElem_eq]
        cases st.sync_groups[gid2]? with
        | none => rfl
        | some g => simp [add_new_node_peers]
      · rw [update_group_getElem_ne _ _ _ _ hgg]

/-- Helper: after the peer-list surgery of a successful move, exactly one
group holds the peer. -/
theorem countP_after_move (gs : List SyncGroup) (peer : Int) (gid : Nat)
    (hlen : gid < gs.length)
    (hdup : ∀ g ∈ gs, g.peers.count peer ≤ 1) :
    ((update_group gid (fun g => { g with peers := g.peers ++ [peer] })
        (gs.map (fun g => { g with peers := g.peers.erase peer }))).countP
      (fun g => decide (peer ∈ g.peers))) = 1 := by
  have h0 : (gs.map (fun g => { g with peers := g.peers.erase peer })).countP
      (fun g => decide (peer ∈ g.peers)) = 0 := by
    rw [List.countP_eq_zero]
    intro g hg
    rcases List.mem_map.mp hg with ⟨g0, hg0, rfl⟩
    simp only [decide_eq_true_eq]
    intro hmem
    have hcount := hdup g0 hg0
    have hzero : (g0.peers.erase peer).count peer = 0 := by
      rw [List.count_erase_self]
      omega
    rw [← List.count_pos_iff] at hmem
    omega
  have hget : (gs.map (fun g => { g with peers := g.peers.erase peer }))[gid]?
      = some { gs[gid] with peers := gs[gid].peers.erase peer } := by
    rw [List.getElem?_map, List.getElem?_eq_getElem hlen]
    rfl
  refine countP_update_group_of_zero _ _ _ gid _ hget h0 ?_
  simp

/-- C5.  Moving a peer to a different existing sync group records the new
group id, sets the peer's "force next snapshot" and "needs full snapshot"
bits, and leaves the peer subscribed to exactly one group (the target); with
those bits set, the snapshot notificator's next pass over any peer list
containing the peer emits a *full* snapshot to it — for every controller
input id the peer may have acknowledged. -/
theorem sync_group_move_peer_full_resync (st : ServerState) (peer : Int) (gid : Nat)
    (pd : PeerData)
    (hpd : lookup_peer st.peer_data peer = some pd)
    (hdiff : pd.sync_group_id ≠ gid)
    (hum : gid ≠ UINT32MAX)
    (hlen : gid < st.sync_groups.length)
    (hdup : ∀ g ∈ st.sync_groups, g.peers.count peer ≤ 1) :
    (∃ pd', lookup_peer (sync_group_move_peer_to st peer gid).peer_data peer = some pd' ∧
      pd'.sync_group_id = gid ∧ pd'.force_notify_snapshot = true ∧
      pd'.need_full_snapshot = true) ∧
    ((sync_group_move_peer_to st peer gid).sync_groups.countP
        (fun g => decide (peer ∈ g.peers)) = 1) ∧
    (∃ g', (sync_group_move_peer_to st peer gid).sync_groups[gid]? = some g' ∧
      peer ∈ g'.peers) ∧
    (∀ (gen : Bool → Nat) (objects : List Nat) (ctrl_input : Nat → Nat)
        (notify_state : Bool) (peers_list : List Int),
      peer ∈ peers_list →
      ∃ s ∈ (process_snapshot_notificator_group gen objects ctrl_input notify_state
          peers_list (sync_group_move_peer_to st peer gid).peer_data).sends,
        s.peer = peer ∧ s.is_full = true) := by
  have hlen2 : ¬ ((st.sync_groups.map
      (fun g => { g with peers := g.peers.erase peer })).length ≤ gid) := by
    simpa using not_le.mpr hlen
  have heq : sync_group_move_peer_to st peer gid =
      (match pd.controller_id with
       | none => move_peer_base st peer gid pd
       | some cid =>
         if cid ∈ (move_peer_base st peer gid pd).objects then
           server_sync_group_add_node (move_peer_base st peer gid pd) (some cid) gid true
         else move_peer_base st peer gid pd) := by
    simp only [sync_group_move_peer_to, hpd, move_peer_base]
    rw [if_neg hdiff, if_neg hum, if_neg hlen2]
  have hA : lookup_peer (move_peer_base st peer gid pd).peer_data peer
      = some { pd with sync_group_id := gid, force_notify_snapshot := true, need_full_snapshot := true } := by
    unfold move_peer_base
    exact lookup_set_peer_eq _ _ _ _ (lookup_set_peer_eq _ _ _ _ hpd)
  have hB : (move_peer_base st peer gid pd).sync_groups.countP
      (fun g => decide (peer ∈ g.peers)) = 1 :=
    countP_after_move st.sync_groups peer gid hlen hdup
  have hC : ∃ g', (move_peer_base st peer gid pd).sync_groups[gid]? = some g' ∧
      peer ∈ g'.peers := by
    refine ⟨{ st.sync_groups[gid] with
      peers := st.sync_groups[gid].peers.erase peer ++ [peer] }, ?_, by simp⟩
    simp only [move_peer_base]
    rw [update_group_getElem_eq, List.getElem?_map, List.getElem?_eq_getElem hlen]
    rfl
  rw [heq]
  cases hcid : pd.controller_id with
  | none =>
    refine ⟨⟨_, hA, rfl, rfl, rfl⟩, hB, hC, ?_⟩
    intro gen objects ctrl_input notify_state peers_list hmem
    simp only [process_snapshot_notificator_group]
    exact foldl_emits_full gen objects ctrl_input notify_state peers_list _ peer _ hA
      rfl rfl hmem
  | some cid =>
    by_cases hco : cid ∈ (move_peer_base st peer gid pd).objects
    · dsimp only
      rw [if_pos hco]
      have hA2 : lookup_peer (server_sync_group_add_node (move_peer_base st peer gid pd)
            (some cid) gid true).peer_data peer
          = some { pd with sync_group_id := gid, force_notify_snapshot := true, need_full_snapshot := true } := by
        rw [server_sync_group_add_node_peer_data]
        exact hA
      refine ⟨⟨_, hA2, rfl, rfl, rfl⟩, ?_, ?_, ?_⟩
      · rw [server_sync_group_add_node_countP _
          (fun g n r2 => by rw [add_new_node_peers])]
        exact hB
      · rcases hC with ⟨g', hg', hmem'⟩
        have hpp := server_sync_group_add_node_peers_at (move_peer_base st peer gid pd)
          (some cid) gid true gid
        rw [hg'] at hpp
        cases hx : (server_sync_group_add_node (move_peer_base st peer gid pd) (some cid)
            gid true).sync_groups[gid]? with
        | none => rw [hx] at hpp; simp at hpp
        | some g2 =>
          rw [hx] at hpp
          refine ⟨g2, rfl, ?_⟩
          have hgp : g2.peers = g'.peers := by simpa using hpp
          rw [hgp]
          exact hmem'
      · intro gen objects ctrl_input notify_state peers_list hmem
        simp only [process_snapshot_notificator_group]
        exact foldl_emits_full gen objects ctrl_input notify_state peers_list _ peer _ hA2
          rfl rfl hmem
    · dsimp only
      rw [if_neg hco]
      refine ⟨⟨_, hA, rfl, rfl, rfl⟩, hB, hC, ?_⟩
      intro gen objects ctrl_input notify_state peers_list hmem
      simp only [process_snapshot_notificator_group]
      exact foldl_emits_full gen objects ctrl_input notify_state peers_list _ peer _ hA
        rfl rfl hmem

/-- C5 (witness). -/
theorem sync_group_move_peer_full_resync_witness :
    (∃ pd', lookup_peer (sync_group_move_peer_to exServerState2 1 1).peer_data 1 = some pd' ∧
      pd'.sync_group_id = 1 ∧ pd'.force_notify_snapshot = true ∧
      pd'.need_full_snapshot = true) ∧
    ((sync_group_move_peer_to exServerState2 1 1).sync_groups.countP
        (fun g => decide ((1 : Int) ∈ g.peers)) = 1) ∧
    (∃ g', (sync_group_move_peer_to exServerState2 1 1).sync_groups[1]? = some g' ∧
      (1 : Int) ∈ g'.peers) ∧
    (∀ (gen : Bool → Nat) (objects : List Nat) (ctrl_input : Nat → Nat)
        (notify_state : Bool) (peers_list : List Int),
      (1 : Int) ∈ peers_list →
      ∃ s ∈ (process_snapshot_notificator_group gen objects ctrl_input notify_state
          peers_list (sync_group_move_peer_to exServerState2 1 1).peer_data).sends,
        s.peer = 1 ∧ s.is_full = true) :=
  sync_group_move_peer_full_resync exServerState2 1 1 exPeerData rfl (by decide) (by decide)
    (by decide) (by decide)

end NS
